import Mathlib

set_option autoImplicit false

namespace EverythingClient

/-! Shallow embedding of the everything-client adapter core
(`src/packages/everything-client` and the unnamed HTTP/CLI adapter sources).
JavaScript strings are embedded as `String` (or `List Char` where the code
indexes into them), JS numbers that can be `NaN` as `JSNum`, `Date` values as
their time value in Unix milliseconds (`Int`), and rejected promises / thrown
exceptions as `Except` / `Option` error components. -/

/-- A JavaScript number that may be `NaN`.  The numeric values that occur in
the adapters (byte sizes, timestamps) are integers, embedded as `Int`. -/
inductive JSNum where
  | nan : JSNum
  | val : Int → JSNum
deriving DecidableEq

/-- Canonical `SearchResult` record (src `types.ts`).  The three `Date` fields
are embedded as their time values in Unix milliseconds. -/
structure SearchResult where
  name : String
  path : String
  fullPath : String
  size : JSNum
  dateModified : Int
  dateCreated : Int
  dateAccessed : Int
  attributes : Nat
  isDirectory : Bool
  isHidden : Bool
  isSystem : Bool
  isReadOnly : Bool
deriving DecidableEq

/-- The `type` field of a change record (`"added" | "deleted" | "modified"`). -/
inductive ChangeType where
  | added : ChangeType
  | deleted : ChangeType
  | modified : ChangeType
deriving DecidableEq

/-- A `FileChange` record `{ path, type }` produced by `detectChanges`. -/
structure Change where
  path : String
  type : ChangeType
deriving DecidableEq

/-! JS `Map<string, SearchResult>` is embedded as an association list in
insertion order: `Map.set` overwrites the value in place when the key is
already present (keeping its position) and appends otherwise, and iteration
follows insertion order. -/

/-- JS `Map.prototype.set`. -/
def mapSet (m : List (String × SearchResult)) (k : String) (v : SearchResult) :
    List (String × SearchResult) :=
  if m.any (fun p => p.1 == k) then
    m.map (fun p => if p.1 == k then (k, v) else p)
  else
    m ++ [(k, v)]

/-- JS `Map.prototype.has`. -/
def mapHas (m : List (String × SearchResult)) (k : String) : Bool :=
  m.any (fun p => p.1 == k)

/-- JS `Map.prototype.get` (`none` = `undefined`). -/
def mapGet (m : List (String × SearchResult)) (k : String) : Option SearchResult :=
  (m.find? (fun p => p.1 == k)).map Prod.snd

/-- The `for (const result of results) map.set(result.fullPath, result)` loops
that build the identity maps in `detectChanges`. -/
def buildPathMap (rs : List SearchResult) : List (String × SearchResult) :=
  rs.foldl (fun m r => mapSet m r.fullPath r) []

/-- `detectChanges` — identical in `IPCAdapter` (ipc-adapter.ts lines 402-438),
`CLIAdapter` (lines 904-940) and `HTTPAdapter` (part_001 lines 340-376):
deleted records for old paths missing from the new map, then added/modified
records while walking the new map in insertion order. -/
def detectChanges (oldResults newResults : List SearchResult) : List Change :=
  let oldPathMap := buildPathMap oldResults
  let newPathMap := buildPathMap newResults
  let deleted :=
    (oldPathMap.filter (fun p => ! mapHas newPathMap p.1)).map
      (fun p => { path := p.1, type := ChangeType.deleted : Change })
  let addedModified :=
    newPathMap.filterMap (fun p =>
      match mapGet oldPathMap p.1 with
      | none => some { path := p.1, type := ChangeType.added : Change }
      | some oldResult =>
          if p.2.dateModified ≠ oldResult.dateModified then
            some { path := p.1, type := ChangeType.modified : Change }
          else
            none)
  deleted ++ addedModified

/-- Snapshot entry for the concrete scenario in the spec (`C:\a.txt`, mtime 100). -/
def resultA : SearchResult :=
  { name := "a.txt", path := "C:", fullPath := "C:\\a.txt", size := JSNum.val 0
    dateModified := 100, dateCreated := 0, dateAccessed := 0, attributes := 0
    isDirectory := false, isHidden := false, isSystem := false, isReadOnly := false }

/-- Snapshot entry `C:\b.txt` with mtime 200 (previous snapshot). -/
def resultB200 : SearchResult :=
  { name := "b.txt", path := "C:", fullPath := "C:\\b.txt", size := JSNum.val 0
    dateModified := 200, dateCreated := 0, dateAccessed := 0, attributes := 0
    isDirectory := false, isHidden := false, isSystem := false, isReadOnly := false }

/-- Snapshot entry `C:\b.txt` with mtime 250 (current snapshot). -/
def resultB250 : SearchResult :=
  { name := "b.txt", path := "C:", fullPath := "C:\\b.txt", size := JSNum.val 0
    dateModified := 250, dateCreated := 0, dateAccessed := 0, attributes := 0
    isDirectory := false, isHidden := false, isSystem := false, isReadOnly := false }

/-- Snapshot entry `C:\c.txt` with mtime 300 (current snapshot). -/
def resultC : SearchResult :=
  { name := "c.txt", path := "C:", fullPath := "C:\\c.txt", size := JSNum.val 0
    dateModified := 300, dateCreated := 0, dateAccessed := 0, attributes := 0
    isDirectory := false, isHidden := false, isSystem := false, isReadOnly := false }

/-- The spec's concrete previous snapshot. -/
def examplePrev : List SearchResult := [resultA, resultB200]

/-- The spec's concrete current snapshot. -/
def exampleCur : List SearchResult := [resultB250, resultC]

/-! HTTP adapter response parsing (`HTTPAdapter.parseSearchResults`,
src/unnamed/part_001 lines 226-270). -/

/-- The `size?: string | number` field of an HTTP response item. -/
inductive SizeField where
  | str : String → SizeField
  | num : Int → SizeField
deriving DecidableEq

/-- One element of `SearchResponse.results` (part_001 lines 34-43).  Optional
fields are `Option`; `type` is `"folder" | "file"`. -/
structure HTTPItem where
  type : String
  name : String
  path : Option String
  size : Option SizeField
  date_modified : Option String
  date_created : Option String
  date_accessed : Option String
  attributes : Option Nat
deriving DecidableEq

/-- Value of a decimal-digit string.  Used to embed the JS conversions
`Number(s)` and `BigInt(s)` on the decimal strings the Everything HTTP server
emits. -/
def strToNat (s : String) : Nat :=
  s.toList.foldl (fun a c => a * 10 + (c.toNat - 48)) 0

/-- JS `Number()` applied to a possibly-absent `string | number` value:
`Number(undefined) = NaN`, `Number(n) = n`, and on strings `Number("") = 0`,
a decimal string parses to its value, anything else is `NaN` (non-decimal
numeric syntaxes such as hex or exponent notation do not occur in Everything
size fields and are embedded as `NaN`-free decimal strings only). -/
def jsNumber : Option SizeField → JSNum
  | none => JSNum.nan
  | some (SizeField.num n) => JSNum.val n
  | some (SizeField.str s) =>
      if s = "" then JSNum.val 0
      else if s.toList.all Char.isDigit then JSNum.val (strToNat s)
      else JSNum.nan

/-- `const size = item.size === "" ? 0 : Number(item.size)` (part_001 line 233). -/
def parseSize (size : Option SizeField) : JSNum :=
  if size = some (SizeField.str "") then JSNum.val 0 else jsNumber size

/-- The `parseDate` closure in `HTTPAdapter.parseSearchResults` (part_001 lines
236-242): a missing or empty timestamp yields `new Date()` (embedded as the
parameter `now`); otherwise `Number(BigInt(timestamp) / BigInt(10000))` — the
tick count is divided by 10000 with truncating BigInt division and NO epoch
offset is subtracted.  `BigInt` on the decimal tick strings Everything emits is
embedded via `strToNat`.  The result is the produced `Date`'s time value. -/
def httpParseDate (now : Int) (timestamp : Option String) : Int :=
  match timestamp with
  | none => now
  | some s =>
      if s = "" then now
      else Int.ofNat (strToNat s / 10000)

/-- Embedding of the per-item mapping in `HTTPAdapter.parseSearchResults`
(part_001 lines 231-269).  `now` is the `Date.now()` used for absent dates. -/
def parseHTTPItem (now : Int) (item : HTTPItem) : SearchResult :=
  let size := parseSize item.size
  let dateModified := httpParseDate now item.date_modified
  let dateCreated := httpParseDate now item.date_created
  let dateAccessed := httpParseDate now item.date_accessed
  let attributes := item.attributes.getD 0
  let isDirectory := item.type == "folder"
  let isHidden := (attributes &&& 0x2) != 0
  let isSystem := (attributes &&& 0x4) != 0
  let isReadOnly := (attributes &&& 0x1) != 0
  { name := if item.name = "" then "" else item.name
    path := match item.path with
            | none => ""
            | some p => if p = "" then "" else p
    fullPath := match item.path with
                | none => item.name
                | some p => if p = "" then item.name else p ++ "\\" ++ item.name
    size := size
    dateModified := dateModified
    dateCreated := dateCreated
    dateAccessed := dateAccessed
    attributes := attributes
    isDirectory := isDirectory
    isHidden := isHidden
    isSystem := isSystem
    isReadOnly := isReadOnly }

/-- `HTTPAdapter.parseSearchResults` (part_001 lines 226-270): a non-array
`results` yields `[]`, otherwise `results.map(...)`. -/
def parseSearchResults (now : Int) (results : Option (List HTTPItem)) :
    List SearchResult :=
  match results with
  | none => []
  | some items => items.map (parseHTTPItem now)

/-- `IPCAdapter.fileTimeToDate` (ipc-adapter.ts lines 443-459), returning the
produced `Date`'s time value in ms: `0` maps to the epoch, otherwise
`(fileTime - 116444736000000000) / 10000` — JS float division whose result the
`Date` constructor truncates toward zero (TimeClip), embedded as `Int.tdiv`. -/
def fileTimeToDate (fileTime : Int) : Int :=
  if fileTime = 0 then 0
  else Int.tdiv (fileTime - 116444736000000000) 10000

/-! CLI adapter CSV parsing (`CLIAdapter.parseCSVResults`, ipc-adapter.ts
source lines 731-789 of the concatenated adapter file).  The CSV machinery
indexes into strings, so JS strings are embedded as `List Char` here and
converted with `List.asString` when stored into the canonical record. -/

/-- JS `String.prototype.split` with a single-character separator:
`"".split(sep) = [""]`, and a trailing separator yields a trailing `""`. -/
def splitChar (sep : Char) : List Char → List (List Char)
  | [] => [[]]
  | c :: cs =>
      match splitChar sep cs with
      | [] => [[]]
      | g :: gs => if c = sep then [] :: g :: gs else (c :: g) :: gs

/-- JS `String.prototype.trim`: strips leading and trailing whitespace. -/
def jsTrim (cs : List Char) : List Char :=
  ((cs.dropWhile Char.isWhitespace).reverse.dropWhile Char.isWhitespace).reverse

/-- JS `String.prototype.substring`: negative-free indices are clamped to the
length and swapped when `a > b`. -/
def jsSubstring (cs : List Char) (a b : Nat) : List Char :=
  let a' := min a cs.length
  let b' := min b cs.length
  ((cs.drop (min a' b')).take (max a' b' - min a' b'))

/-- The quoted-value handler in `parseCSVResults` (lines 746-751):
`value.startsWith('"') && value.endsWith('"') ? value.substring(1, value.length - 1) : value`. -/
def stripQuotes (value : List Char) : List Char :=
  if value.head? = some '"' ∧ value.getLast? = some '"' then
    jsSubstring value 1 (value.length - 1)
  else value

/-- JS `String.prototype.lastIndexOf` for a single character
(`none` = `-1`). -/
def lastIndexOfChar (c : Char) (cs : List Char) : Option Nat :=
  match cs.reverse.findIdx? (fun x => x == c) with
  | none => none
  | some i => some (cs.length - 1 - i)

/-- Lines 760-767: `fileName = fullPath.substring(lastBackslashIndex + 1)` and
`path = fullPath.substring(0, lastBackslashIndex)` when a backslash exists,
else `fileName = fullPath`, `path = ""`.  Returns `(fileName, path)`. -/
def splitAtLastBackslash (cs : List Char) : List Char × List Char :=
  match lastIndexOfChar '\\' cs with
  | none => (cs, [])
  | some i => (cs.drop (i + 1), cs.take i)

/-- One iteration of the line loop in `parseCSVResults` (lines 741-786);
`none` embeds `continue`.  `now` is the `new Date()` used for the three date
fields (line 777-779). -/
def parseCSVLine (now : Int) (line0 : List Char) : Option SearchResult :=
  let line := jsTrim line0
  if line = [] then none
  else
    let values := (splitChar ',' line).map stripQuotes
    if values.length < 1 then none
    else
      let fullPath := values.headD []
      let fp := splitAtLastBackslash fullPath
      let fileName := fp.1
      let path := fp.2
      let isDirectory := fullPath.getLast? == some '\\' || fileName.isEmpty
      some { name := fileName.asString
             path := path.asString
             fullPath := fullPath.asString
             size := JSNum.val 0
             dateModified := now
             dateCreated := now
             dateAccessed := now
             attributes := 0
             isDirectory := isDirectory
             isHidden := false
             isSystem := false
             isReadOnly := false }

/-- `CLIAdapter.parseCSVResults`: trim the output, split into lines, parse each
line, skipping blanks and malformed lines. -/
def parseCSVResults (now : Int) (csvData : List Char) : List SearchResult :=
  (splitChar '\n' (jsTrim csvData)).filterMap (parseCSVLine now)

/-! Monitoring poll ticks.  Each adapter's `monitorFileChanges` keeps a
`lastResults` closure variable (initially `[]`) and runs a poll body per tick;
one body execution is embedded as a function from the previous snapshot and the
outcome of `this.search("*")` to the optional callback argument (`none` = the
callback is not invoked) and the new snapshot variable value. -/

/-- Error taxonomy of `src/utils/errors.ts`, carrying the message. -/
inductive EverythingErr where
  | generic : String → EverythingErr
  | connection : String → EverythingErr
  | search : String → EverythingErr
  | ipc : String → EverythingErr
  | cli : String → EverythingErr
  | http : String → EverythingErr
deriving DecidableEq

/-- One execution of `poll` in `IPCAdapter.monitorFileChanges` (ipc-adapter.ts
lines 365-388): errors are swallowed leaving the snapshot unchanged; a diff is
computed only when `lastResults.length > 0`; the callback fires only on a
non-empty change list; the snapshot is then replaced by the new results. -/
def ipcPollTick (lastResults : List SearchResult)
    (searchOutcome : Except EverythingErr (List SearchResult)) :
    Option (List Change) × List SearchResult :=
  match searchOutcome with
  | Except.error _ => (none, lastResults)
  | Except.ok results =>
      (if lastResults.length > 0 then
         (let changes := detectChanges lastResults results
          if changes.length > 0 then some changes else none)
       else none,
       results)

/-- One execution of `poll` in `CLIAdapter.monitorFileChanges` (lines 867-890);
the body is identical to the IPC one apart from the 10000 ms re-poll delay. -/
def cliPollTick (lastResults : List SearchResult)
    (searchOutcome : Except EverythingErr (List SearchResult)) :
    Option (List Change) × List SearchResult :=
  match searchOutcome with
  | Except.error _ => (none, lastResults)
  | Except.ok results =>
      (if lastResults.length > 0 then
         (let changes := detectChanges lastResults results
          if changes.length > 0 then some changes else none)
       else none,
       results)

/-- One execution of the `setInterval` callback in
`HTTPAdapter.monitorFileChanges` (part_001 lines 322-338): unlike the IPC/CLI
bodies there is no `lastResults.length > 0` guard — the diff is computed and
the callback fired (when non-empty) even on the very first tick. -/
def httpPollTick (lastResults : List SearchResult)
    (searchOutcome : Except EverythingErr (List SearchResult)) :
    Option (List Change) × List SearchResult :=
  match searchOutcome with
  | Except.error _ => (none, lastResults)
  | Except.ok newResults =>
      (let changes := detectChanges lastResults newResults
       if changes.length > 0 then some changes else none,
       newResults)

/-! Tick scheduling.  `d k` is the wall-clock duration (ms) of the k-th tick's
search-and-diff body; tick k occupies the half-open interval
`[start k, start k + d k)`.  The IPC and CLI monitors call `poll()` immediately
and re-arm with `setTimeout(poll, delay)` only after the body completes, so the
next start is `start k + d k + delay`.  The HTTP monitor uses
`setInterval(cb, 1000)`, whose timer fires at `1000 * (k+1)` regardless of
whether the previous async callback has completed. -/

/-- Start time of the k-th poll in `IPCAdapter.monitorFileChanges`
(`setTimeout(poll, 5000)` after the body, first run immediate). -/
def ipcTickStart (d : Nat → Nat) : Nat → Nat
  | 0 => 0
  | k + 1 => ipcTickStart d k + d k + 5000

/-- Start time of the k-th poll in `CLIAdapter.monitorFileChanges`
(`setTimeout(poll, 10000)` after the body, first run immediate). -/
def cliTickStart (d : Nat → Nat) : Nat → Nat
  | 0 => 0
  | k + 1 => cliTickStart d k + d k + 10000

/-- Start time of the k-th callback of `setInterval(..., 1000)` in
`HTTPAdapter.monitorFileChanges`: fires every 1000 ms independent of the
callback's duration. -/
def httpTickStart (k : Nat) : Nat := 1000 * (k + 1)

/-! Connection lifecycle.  Each adapter owns a private connection state;
`connect` is embedded as a state transition returning the thrown error message
(`none` = resolved without throwing) together with the post-state, and
`disconnect` as a total state function (its TS body is a sequence of plain
assignments and cannot throw). -/

/-- Outcome of a transport probe: success, or the underlying error's message. -/
inductive ProbeResult where
  | ok : ProbeResult
  | error : String → ProbeResult
deriving DecidableEq

/-- Private state of `HTTPAdapter`: the `connected` and `connecting` flags and
`currentQuery` (part_001 lines 72-75). -/
structure HTTPState where
  connected : Bool
  connecting : Bool
  currentQuery : Option String
deriving DecidableEq

/-- `HTTPAdapter.connect` (part_001 lines 87-114): no-op when connected;
throws "Connection already in progress" when a connect is in flight; otherwise
sets `connecting`, probes the server, marks connected on success, wraps the
probe error in an `EverythingConnectionError` on failure, and always clears
`connecting` in the `finally` block. -/
def httpConnect (s : HTTPState) (probe : ProbeResult) : Option String × HTTPState :=
  if s.connected then (none, s)
  else if s.connecting then (some "Connection already in progress", s)
  else
    match probe with
    | ProbeResult.ok => (none, { s with connected := true, connecting := false })
    | ProbeResult.error e =>
        (some ("Failed to connect to Everything HTTP server: " ++ e),
         { s with connecting := false })

/-- `HTTPAdapter.disconnect` (part_001 lines 157-159): `this.connected = false`. -/
def httpDisconnect (s : HTTPState) : HTTPState :=
  { s with connected := false }

/-- Private state of `CLIAdapter`: the `connected` flag and `currentQuery`. -/
structure CLIState where
  connected : Bool
  currentQuery : Option String
deriving DecidableEq

/-- `CLIAdapter.connect` (lines 604-620): no-op when connected; otherwise runs
`"cliPath" -h` and wraps a failure in an `EverythingConnectionError`. -/
def cliConnect (s : CLIState) (probe : ProbeResult) : Option String × CLIState :=
  if s.connected then (none, s)
  else
    match probe with
    | ProbeResult.ok => (none, { s with connected := true })
    | ProbeResult.error e =>
        (some ("Failed to connect to Everything CLI: " ++ e), s)

/-- `CLIAdapter.disconnect` (lines 625-627): `this.connected = false`. -/
def cliDisconnect (s : CLIState) : CLIState :=
  { s with connected := false }

/-- Private state of `IPCAdapter`: the `connected` flag and whether the
`ffi`, `ref` and `everything` handles are non-null (ipc-adapter.ts lines
75-80). -/
structure IPCState where
  connected : Bool
  ffiLoaded : Bool
  refLoaded : Bool
  everythingLoaded : Bool
deriving DecidableEq

/-- Environment of one `IPCAdapter.connect` attempt: whether the dynamic
`ffi-napi`/`ref-napi` imports resolve, the outcome of `ffi.Library` on the
Everything DLL, and the value `Everything_GetLastError()` returns. -/
structure IPCEnv where
  importOk : Bool
  libraryResult : ProbeResult
  lastErrorCode : Nat
deriving DecidableEq

/-- `IPCAdapter.connect` (ipc-adapter.ts lines 119-181): no-op when connected.
Otherwise: import the FFI modules unless both handles are already loaded
(failure throws the fixed FFI message); load the DLL function table via
`ffi.Library` (setting `this.everything`); probe with
`Everything_GetLastError()`, failing on a non-zero code.  Every failure is
wrapped as `EverythingConnectionError("Failed to connect to Everything: " +
message)` and leaves `connected` false. -/
def ipcConnect (s : IPCState) (env : IPCEnv) : Option String × IPCState :=
  if s.connected then (none, s)
  else if ¬ (s.ffiLoaded ∧ s.refLoaded) ∧ ¬ env.importOk then
    (some ("Failed to connect to Everything: " ++
           "Failed to load FFI modules. Make sure ffi-napi and ref-napi are installed."),
     s)
  else
    let s1 := { s with ffiLoaded := true, refLoaded := true }
    match env.libraryResult with
    | ProbeResult.error e =>
        (some ("Failed to connect to Everything: " ++ e), s1)
    | ProbeResult.ok =>
        let s2 := { s1 with everythingLoaded := true }
        if env.lastErrorCode ≠ 0 then
          (some ("Failed to connect to Everything: Everything error code: " ++
                 toString env.lastErrorCode),
           s2)
        else (none, { s2 with connected := true })

/-- `IPCAdapter.disconnect` (ipc-adapter.ts lines 186-190):
`this.everything = null; this.ffi = null; this.connected = false`
(`this.ref` is left as is). -/
def ipcDisconnect (s : IPCState) : IPCState :=
  { s with everythingLoaded := false, ffiLoaded := false, connected := false }

/-! Client facade.  `BaseAdapter` is the capability contract
(src adapters/base-adapter.ts); each effectful operation is embedded by the
value it produces, with `Except` for promise rejection.  The callback and
unsubscribe function types are kept abstract as functions into `Unit`. -/

/-- `SearchStatus` (types.ts). -/
structure SearchStatus where
  totalResults : Nat
  indexingComplete : Bool
  percentComplete : Nat
deriving DecidableEq

/-- `SearchOptions` (types.ts); every field is optional.  The `sortBy` and
`sortOrder` string-literal unions are embedded as `String`. -/
structure SearchOptions where
  matchCase : Option Bool := none
  matchPath : Option Bool := none
  matchWholeWord : Option Bool := none
  regex : Option Bool := none
  maxResults : Option Int := none
  offset : Option Int := none
  sortBy : Option String := none
  sortOrder : Option String := none
  includeHidden : Option Bool := none
  includeSystem : Option Bool := none
  includeDirectories : Option Bool := none
  includeFiles : Option Bool := none
deriving DecidableEq

/-- The `BaseAdapter` operation set (base-adapter.ts). -/
structure BaseAdapter where
  search : String → Option SearchOptions → Except EverythingErr (List SearchResult)
  connect : Except EverythingErr Unit
  disconnect : Unit
  isConnected : Bool
  getVersion : Except EverythingErr String
  rebuildIndex : Except EverythingErr Unit
  getSearchStatus : Except EverythingErr SearchStatus
  monitorFileChanges : (List Change → Unit) → (Unit → Unit)

/-- `EverythingClientImpl` (client.ts lines 100-165): holds one adapter and
forwards every operation to it verbatim. -/
def EverythingClientImpl (adapter : BaseAdapter) : BaseAdapter where
  search := fun query options => adapter.search query options
  connect := adapter.connect
  disconnect := adapter.disconnect
  isConnected := adapter.isConnected
  getVersion := adapter.getVersion
  rebuildIndex := adapter.rebuildIndex
  getSearchStatus := adapter.getSearchStatus
  monitorFileChanges := fun callback => adapter.monitorFileChanges callback

/-! HTTP search request parameters (`HTTPAdapter.search`, part_001 lines
183-207) and the IPC result cap (`IPCAdapter.search`, ipc-adapter.ts lines
222-233). -/

/-- `URLSearchParams.prototype.set`: replace the value of the first entry with
the key, drop any later entries with the key, append when absent. -/
def paramsSet : List (String × String) → String → String → List (String × String)
  | [], k, v => [(k, v)]
  | p :: ps, k, v =>
      if p.1 = k then (k, v) :: ps.filter (fun q => ! (q.1 == k))
      else p :: paramsSet ps k v

/-- `URLSearchParams.prototype.get` (`none` = `null`). -/
def paramsGet (ps : List (String × String)) (k : String) : Option String :=
  (ps.find? (fun p => p.1 == k)).map Prod.snd

/-- JS truthiness of an optional boolean option (`undefined` and `false` are
falsy). -/
def optTrue (b : Option Bool) : Bool := b = some true

/-- The query parameter list built by `HTTPAdapter.search`: the `append` calls
of lines 184-199 in order, then the `set` overrides of lines 202-207 for
numeric `maxResults` / `offset`. -/
def httpSearchParams (query : String) (options : SearchOptions) :
    List (String × String) :=
  let params : List (String × String) :=
    [("s", query),
     ("o", "0"),
     ("c", "32"),
     ("j", "1"),
     ("i", if optTrue options.matchCase then "1" else "0"),
     ("w", if optTrue options.matchWholeWord then "1" else "0"),
     ("p", "1"),
     ("r", if optTrue options.regex then "1" else "0"),
     ("m", if optTrue options.matchCase then "1" else "0"),
     ("path_column", "1"),
     ("size_column", "1"),
     ("date_modified_column", "1"),
     ("date_created_column", "1"),
     ("attributes_column", "1"),
     ("sort", match options.sortBy with
              | none => "name"
              | some s => if s = "" then "name" else s),
     ("ascending", if options.sortOrder = some "asc" then "1" else "0")]
  let params := match options.maxResults with
    | some n => paramsSet params "c" (toString n)
    | none => params
  let params := match options.offset with
    | some n => paramsSet params "o" (toString n)
    | none => params
  params

/-- The argument `IPCAdapter.search` passes to `Everything_SetMax` (lines
222-227): the numeric `options.maxResults` when present, else the default
limit 1000. -/
def ipcSetMaxArg (options : SearchOptions) : Int :=
  match options.maxResults with
  | some n => n
  | none => 1000

/-- An HTTP response item with no `size` field at all. -/
def itemNoSize : HTTPItem :=
  { type := "file", name := "x.txt", path := none, size := none
    date_modified := none, date_created := none, date_accessed := none
    attributes := none }

/-- An HTTP response item with `size: ""`. -/
def itemEmptySize : HTTPItem :=
  { type := "file", name := "x.txt", path := none
    size := some (SizeField.str "")
    date_modified := none, date_created := none, date_accessed := none
    attributes := none }

/-- A JS value that is either a string or `undefined`.  The response data that
reaches `HTTPAdapter.parseSearchResults` is ofetch's parsed JSON cast to
`SearchResponse` without validation, so at runtime even the field the declared
interface marks required (`name: string`) can be absent — this type is the
runtime type of `item.name`. -/
inductive JSString where
  | undef : JSString
  | str : String → JSString
deriving DecidableEq

/-- Template-literal interpolation of a string-or-undefined value:
JS stringifies `undefined` as `"undefined"` inside a template literal. -/
def jsTemplate (v : JSString) : String :=
  match v with
  | JSString.undef => "undefined"
  | JSString.str s => s

/-- JS `v || ""` on a string-or-undefined value (`undefined` and `""` are
falsy). -/
def jsOrEmpty (v : JSString) : String :=
  match v with
  | JSString.undef => ""
  | JSString.str s => if s = "" then "" else s

/-- An HTTP response item as it reaches `parseSearchResults` at runtime:
`name` is `JSString` because the JSON cast is unvalidated and the field can be
absent despite the interface requiring it. -/
structure HTTPItemRaw where
  type : String
  name : JSString
  path : Option String
  size : Option SizeField
  date_modified : Option String
  date_created : Option String
  date_accessed : Option String
  attributes : Option Nat
deriving DecidableEq

/-- The `(name, path, fullPath)` triple the per-item mapping of
`HTTPAdapter.parseSearchResults` (part_001 lines 256-258) computes on an
unvalidated runtime item: `name: item.name || ""`, `path: item.path || ""`,
and ``fullPath: item.path ? `${item.path}\\${item.name}` : item.name`` — in
the truthy-path branch the template literal stringifies an absent `name` as
`"undefined"`, but in the falsy-path branch the raw `item.name` flows through
unguarded, so `fullPath` is the JS value `undefined` when `name` is absent and
`path` is absent or empty. -/
def parseHTTPItemStrings (item : HTTPItemRaw) : String × String × JSString :=
  (jsOrEmpty item.name,
   (match item.path with
    | none => ""
    | some p => if p = "" then "" else p),
   (match item.path with
    | none => item.name
    | some p =>
        if p = "" then item.name
        else JSString.str (p ++ "\\" ++ jsTemplate item.name)))

/-- A runtime HTTP response item with both `name` and `path` absent. -/
def itemNoNameNoPath : HTTPItemRaw :=
  { type := "file", name := JSString.undef, path := none
    size := some (SizeField.num 7)
    date_modified := none, date_created := none, date_accessed := none
    attributes := none }

/-- The added/modified decision `detectChanges` makes for one entry of the new
map against the old map (the second loop body, specialized to an entry
`(rn.fullPath, rn)`). -/
def addedModifiedEntry (oldM : List (String × SearchResult)) (rn : SearchResult) :
    Option Change :=
  match mapGet oldM rn.fullPath with
  | none => some { path := rn.fullPath, type := ChangeType.added }
  | some ro =>
      if rn.dateModified ≠ ro.dateModified then
        some { path := rn.fullPath, type := ChangeType.modified }
      else none

/-- C8: for every adapter and every starting state, `disconnect` leaves the
adapter unconnected and is idempotent: a second consecutive call produces the
same state as the first.  (`disconnect` is embedded as a total state function
because each TS body is a sequence of plain assignments and cannot throw.) -/
theorem disconnect_unconnected_idempotent (hs : HTTPState) (cs : CLIState)
    (is : IPCState) :
    (httpDisconnect hs).connected = false
    ∧ httpDisconnect (httpDisconnect hs) = httpDisconnect hs
    ∧ (cliDisconnect cs).connected = false
    ∧ cliDisconnect (cliDisconnect cs) = cliDisconnect cs
    ∧ (ipcDisconnect is).connected = false
    ∧ ipcDisconnect (ipcDisconnect is) = ipcDisconnect is := by
  refine ⟨rfl, rfl, rfl, rfl, rfl, rfl⟩

/-- C9: the client facade is pure delegation — every operation of
`EverythingClientImpl` returns exactly what the held adapter's operation
returns on the same arguments (rejections pass through unchanged inside the
`Except` values). -/
theorem client_pure_delegation (adapter : BaseAdapter) :
    (∀ query options,
      (EverythingClientImpl adapter).search query options = adapter.search query options)
    ∧ (EverythingClientImpl adapter).connect = adapter.connect
    ∧ (EverythingClientImpl adapter).disconnect = adapter.disconnect
    ∧ (EverythingClientImpl adapter).isConnected = adapter.isConnected
    ∧ (EverythingClientImpl adapter).getVersion = adapter.getVersion
    ∧ (EverythingClientImpl adapter).rebuildIndex = adapter.rebuildIndex
    ∧ (EverythingClientImpl adapter).getSearchStatus = adapter.getSearchStatus
    ∧ (∀ callback,
      (EverythingClientImpl adapter).monitorFileChanges callback
        = adapter.monitorFileChanges callback) := by
  exact ⟨fun _ _ => rfl, rfl, rfl, rfl, rfl, rfl, rfl, fun _ => rfl⟩

/-- C10: when `maxResults` is not a number the IPC adapter caps the engine at
1000 (`Everything_SetMax(1000)`) and the HTTP adapter requests a page size of
32 (`c=32`); an explicit numeric `maxResults` overrides the default in both. -/
theorem default_result_caps (query : String) (options : SearchOptions) :
    ipcSetMaxArg options = options.maxResults.getD 1000
    ∧ paramsGet (httpSearchParams query options) "c" =
        some (match options.maxResults with
              | some n => toString n
              | none => "32") := by
  constructor
  · rcases hm : options.maxResults with _ | n <;> simp [ipcSetMaxArg, hm]
  · rcases hm : options.maxResults with _ | n <;>
      rcases ho : options.offset with _ | o <;>
      simp [httpSearchParams, paramsGet, paramsSet, hm, ho, List.find?]

/-- C3: on the raw tick value 116444736000000000 (exactly the Windows→Unix
epoch offset) the IPC adapter's `fileTimeToDate` subtracts the offset and
yields Unix-epoch-zero (0 ms = 1970-01-01T00:00:00.000Z), but the HTTP
adapter's `parseDate` divides by 10000 without subtracting the offset and
yields 11644473600000 ms instead of 0 — the two adapters disagree on the very
value the spec pins down. -/
theorem fileTime_epoch_conversion (now : Int) :
    fileTimeToDate 116444736000000000 = 0
    ∧ httpParseDate now (some "116444736000000000") = 11644473600000
    ∧ httpParseDate now (some "116444736000000000") ≠ fileTimeToDate 116444736000000000 := by
  have h : httpParseDate now (some "116444736000000000") = 11644473600000 := by
    show (if ("116444736000000000" : String) = "" then now
          else Int.ofNat (strToNat "116444736000000000" / 10000)) = 11644473600000
    rw [if_neg (by decide)]
    decide
  refine ⟨by decide, h, ?_⟩
  rw [h]
  decide

/-- C4 counterexample: an HTTP item with an absent `size` field normalizes to
`NaN`, not `0` — `Number(undefined)` is `NaN` and only the empty-string case is
special-cased. -/
theorem http_missing_size_is_nan :
    (parseHTTPItem 0 itemNoSize).size = JSNum.nan
    ∧ JSNum.nan ≠ JSNum.val 0 := by decide

/-- C4 (amended): the canonical size is `0` for an empty-string size and the
numeric value for a numeric size, but an absent `size` field normalizes to
`NaN`; `NaN` arises exactly for an absent size or a non-empty non-decimal size
string. -/
theorem http_size_normalization (now : Int) (item : HTTPItem) :
    (item.size = some (SizeField.str "") → (parseHTTPItem now item).size = JSNum.val 0)
    ∧ (∀ n, item.size = some (SizeField.num n) → (parseHTTPItem now item).size = JSNum.val n)
    ∧ (item.size = none → (parseHTTPItem now item).size = JSNum.nan)
    ∧ ((parseHTTPItem now item).size = JSNum.nan ↔
        item.size = none
        ∨ ∃ s, item.size = some (SizeField.str s) ∧ s ≠ ""
            ∧ ¬ s.toList.all Char.isDigit = true) := by
  have hsz : (parseHTTPItem now item).size = parseSize item.size := rfl
  rw [hsz]
  refine ⟨fun h => by simp [h, parseSize], fun n h => by simp [h, parseSize, jsNumber],
    fun h => by simp [h, parseSize, jsNumber], ?_⟩
  rcases hs : item.size with _ | sf
  · simp [parseSize, jsNumber]
  · rcases sf with s | n
    · by_cases he : s = ""
      · subst he
        simp [parseSize, jsNumber]
      · by_cases hd : s.toList.all Char.isDigit
        · simp [parseSize, jsNumber, he, hd]
        · simp [parseSize, jsNumber, he, hd]
    · simp [parseSize, jsNumber]

/-- C4 witness: the spec's concrete `size: ""` scenario normalizes to 0. -/
theorem http_size_normalization_witness :
    (parseHTTPItem 0 itemEmptySize).size = JSNum.val 0 :=
  (http_size_normalization 0 itemEmptySize).1 rfl

/-- If the file-name half of `splitAtLastBackslash` is non-empty, so was the
input. -/
theorem splitAtLastBackslash_fst_ne_nil {cs : List Char}
    (h : (splitAtLastBackslash cs).1 ≠ []) : cs ≠ [] := by
  intro hcs
  subst hcs
  revert h
  simp [splitAtLastBackslash, lastIndexOfChar]

/-- A non-empty character list converts to a non-empty string. -/
theorem asString_ne_empty {cs : List Char} (h : cs ≠ []) : cs.asString ≠ "" := by
  intro he
  exact h (by simpa [List.asString] using congrArg String.data he)

/-- C5 counterexample: a runtime HTTP response item with both `name` and
`path` absent parses to `fullPath = undefined` — the raw `item.name` flows
through the falsy-path branch unguarded — contradicting "name, path and
fullPath are always strings, never undefined". -/
theorem http_absent_name_fullPath_undefined :
    (parseHTTPItemStrings itemNoNameNoPath).2.2 = JSString.undef := by decide

/-- C5 (amended): the normalized `name` and `path` are always strings (an
absent `name` or `path` normalizes to `""`), and `fullPath` is a string —
non-empty whenever `name` is non-empty — in every case except one: when
`name` is absent and `path` is absent or empty, `fullPath` is the raw
`undefined`, and that is the only way `fullPath` can fail to be a string.
Every record produced by the CLI adapter's CSV parser has a non-empty
`fullPath` whenever its `name` is non-empty. -/
theorem string_fields_runtime (item : HTTPItemRaw) (now : Int) (csv : List Char) :
    (item.name = JSString.undef → (parseHTTPItemStrings item).1 = "")
    ∧ (item.path = none → (parseHTTPItemStrings item).2.1 = "")
    ∧ (item.path = some "" → (parseHTTPItemStrings item).2.1 = "")
    ∧ ((parseHTTPItemStrings item).2.2 = JSString.undef ↔
        item.name = JSString.undef ∧ (item.path = none ∨ item.path = some ""))
    ∧ ((parseHTTPItemStrings item).1 ≠ "" →
        ∃ s, (parseHTTPItemStrings item).2.2 = JSString.str s ∧ s ≠ "")
    ∧ (∀ r ∈ parseCSVResults now csv, r.name ≠ "" → r.fullPath ≠ "") := by
  refine ⟨fun h => by simp [parseHTTPItemStrings, h, jsOrEmpty],
    fun h => by simp [parseHTTPItemStrings, h],
    fun h => by simp [parseHTTPItemStrings, h], ?_, ?_, ?_⟩
  · rcases hp : item.path with _ | p
    · rcases hn : item.name with _ | s <;> simp [parseHTTPItemStrings, hp, hn]
    · by_cases hpe : p = ""
      · subst hpe
        rcases hn : item.name with _ | s <;> simp [parseHTTPItemStrings, hp, hn]
      · simp [parseHTTPItemStrings, hp, hpe]
  · intro hn
    rcases hn' : item.name with _ | s
    · exact absurd (by simp [parseHTTPItemStrings, hn', jsOrEmpty]) hn
    · have hs : s ≠ "" := by
        intro h0
        subst h0
        exact hn (by simp [parseHTTPItemStrings, hn', jsOrEmpty])
      rcases hp : item.path with _ | p
      · exact ⟨s, by simp [parseHTTPItemStrings, hp, hn'], hs⟩
      · by_cases hpe : p = ""
        · subst hpe
          exact ⟨s, by simp [parseHTTPItemStrings, hp, hn'], hs⟩
        · refine ⟨p ++ "\\" ++ s,
            by simp [parseHTTPItemStrings, hp, hpe, hn', jsTemplate], ?_⟩
          intro he
          have := congrArg String.data he
          simp [String.data_append] at this
  · intro r hr hn
    obtain ⟨line, _, hsome⟩ := List.mem_filterMap.1 hr
    simp only [parseCSVLine] at hsome
    split at hsome
    · exact absurd hsome (by simp)
    · split at hsome
      · exact absurd hsome (by simp)
      · obtain rfl := Option.some.inj hsome
        apply asString_ne_empty
        apply splitAtLastBackslash_fst_ne_nil
        intro hfn
        apply hn
        show (splitAtLastBackslash
          ((List.map stripQuotes (splitChar ',' (jsTrim line))).headD [])).1.asString = ""
        rw [hfn]
        rfl

/-- C5 witness: the both-fields-absent runtime item normalizes `name` and
`path` to `""`, and its `fullPath` is the undefined value, by the amended
characterization applied to that concrete item. -/
theorem string_fields_runtime_witness :
    (parseHTTPItemStrings itemNoNameNoPath).1 = ""
    ∧ (parseHTTPItemStrings itemNoNameNoPath).2.1 = ""
    ∧ (parseHTTPItemStrings itemNoNameNoPath).2.2 = JSString.undef :=
  ⟨(string_fields_runtime itemNoNameNoPath 0 []).1 rfl,
   (string_fields_runtime itemNoNameNoPath 0 []).2.1 rfl,
   ((string_fields_runtime itemNoNameNoPath 0 []).2.2.2.1).mpr (by decide)⟩

/-- C7: from an unconnected state a failed `connect` throws an
`EverythingConnectionError` wrapping the underlying transport diagnostic and
leaves the adapter unconnected; the `connected` flag becomes true exactly when
the probe succeeds (equivalently, when nothing was thrown). -/
theorem connect_failure_leaves_unconnected (e : String) (c : Nat) (s : IPCState)
    (hs : s.connected = false) (hc : c ≠ 0) :
    httpConnect ⟨false, false, none⟩ (ProbeResult.error e)
      = (some ("Failed to connect to Everything HTTP server: " ++ e),
         ⟨false, false, none⟩)
    ∧ (∀ (p : ProbeResult) (q : Option String),
        (httpConnect ⟨false, false, q⟩ p).2.connected = true ↔ p = ProbeResult.ok)
    ∧ cliConnect ⟨false, none⟩ (ProbeResult.error e)
      = (some ("Failed to connect to Everything CLI: " ++ e), ⟨false, none⟩)
    ∧ (∀ (cs : CLIState) (p : ProbeResult),
        (cliConnect cs p).2.connected = true ↔ (cs.connected = true ∨ p = ProbeResult.ok))
    ∧ ipcConnect ⟨false, false, false, false⟩ ⟨false, ProbeResult.ok, 0⟩
      = (some ("Failed to connect to Everything: Failed to load FFI modules. Make sure ffi-napi and ref-napi are installed."),
         ⟨false, false, false, false⟩)
    ∧ ipcConnect ⟨false, false, false, false⟩ ⟨true, ProbeResult.error e, 0⟩
      = (some ("Failed to connect to Everything: " ++ e), ⟨false, true, true, false⟩)
    ∧ ipcConnect ⟨false, false, false, false⟩ ⟨true, ProbeResult.ok, c⟩
      = (some ("Failed to connect to Everything: Everything error code: " ++ toString c),
         ⟨false, true, true, true⟩)
    ∧ (∀ env : IPCEnv,
        (ipcConnect s env).2.connected = true ↔ (ipcConnect s env).1 = none) := by
  refine ⟨rfl, ?_, rfl, ?_, by simp [ipcConnect], by simp [ipcConnect],
    by simp [ipcConnect, hc], ?_⟩
  · intro p q
    cases p <;> simp [httpConnect]
  · intro cs p
    by_cases hcs : cs.connected = true
    · simp [cliConnect, hcs]
    · cases p <;> simp [cliConnect, hcs]
  · intro env
    rcases env with ⟨imp, lib, code⟩
    unfold ipcConnect
    rw [if_neg (by simp [hs])]
    by_cases h1 : ¬ (s.ffiLoaded = true ∧ s.refLoaded = true) ∧ ¬ imp = true
    · rw [if_pos h1]
      simp [hs]
    · rw [if_neg h1]
      cases lib with
      | error le => simp [hs]
      | ok =>
          by_cases h2 : code = 0
          · subst h2
            simp [hs]
          · simp [hs, h2]

/-- C7 witness: the HTTP adapter, probed unsuccessfully from the fresh state,
throws the wrapping `ConnectionError` and stays unconnected. -/
theorem connect_failure_leaves_unconnected_witness :
    httpConnect ⟨false, false, none⟩ (ProbeResult.error "request rejected")
      = (some ("Failed to connect to Everything HTTP server: " ++ "request rejected"),
         ⟨false, false, none⟩) :=
  (connect_failure_leaves_unconnected "request rejected" 1 ⟨false, false, false, false⟩
    rfl (by decide)).1

/-! Association-list lemmas about the JS `Map` embedding, used to characterize
`detectChanges`. -/

theorem mapSet_eq_append {m : List (String × SearchResult)} {k : String} (v : SearchResult)
    (h : ∀ p ∈ m, p.1 ≠ k) : mapSet m k v = m ++ [(k, v)] := by
  have h' : ¬ (m.any (fun p => p.1 == k) = true) := by
    simp only [List.any_eq_true, beq_iff_eq]
    rintro ⟨p, hp, hk⟩
    exact h p hp hk
  unfold mapSet
  rw [if_neg h']

theorem buildPathMap_go (rs : List SearchResult) :
    ∀ acc : List (String × SearchResult),
      (∀ r ∈ rs, ∀ p ∈ acc, p.1 ≠ r.fullPath) →
      (rs.map SearchResult.fullPath).Nodup →
      rs.foldl (fun m r => mapSet m r.fullPath r) acc
        = acc ++ rs.map (fun r => (r.fullPath, r)) := by
  induction rs with
  | nil => intro acc _ _; simp
  | cons r rs ih =>
      intro acc hacc hnd
      rw [List.map_cons, List.nodup_cons] at hnd
      obtain ⟨hnotin, hndtl⟩ := hnd
      simp only [List.foldl_cons, List.map_cons]
      rw [mapSet_eq_append r (fun p hp => hacc r (by simp) p hp)]
      rw [ih (acc ++ [(r.fullPath, r)]) ?_ hndtl]
      · simp
      · intro r' hr' p hp
        rcases List.mem_append.1 hp with h | h
        · exact hacc r' (by simp [hr']) p h
        · have hp1 : p = (r.fullPath, r) := by simpa using h
          subst hp1
          intro hEq
          have hEq' : r.fullPath = r'.fullPath := hEq
          apply hnotin
          rw [hEq']
          exact List.mem_map_of_mem _ hr'

theorem buildPathMap_eq {rs : List SearchResult}
    (h : (rs.map SearchResult.fullPath).Nodup) :
    buildPathMap rs = rs.map (fun r => (r.fullPath, r)) := by
  simpa [buildPathMap] using buildPathMap_go rs [] (by simp) h

theorem mapHas_map_iff (rs : List SearchResult) (k : String) :
    mapHas (rs.map (fun r => (r.fullPath, r))) k = true
      ↔ k ∈ rs.map SearchResult.fullPath := by
  simp only [mapHas, List.any_eq_true, beq_iff_eq, List.mem_map]
  constructor
  · rintro ⟨p, hp, hk⟩
    obtain ⟨r, hr, rfl⟩ := hp
    exact ⟨r, hr, hk⟩
  · rintro ⟨r, hr, hk⟩
    exact ⟨(r.fullPath, r), ⟨r, hr, rfl⟩, hk⟩

theorem mapGet_cons (p : String × SearchResult) (m : List (String × SearchResult))
    (k : String) :
    mapGet (p :: m) k = if p.1 = k then some p.2 else mapGet m k := by
  by_cases h : p.1 = k <;> simp [mapGet, List.find?_cons, h]

theorem mapGet_map_eq_none_iff (rs : List SearchResult) (k : String) :
    mapGet (rs.map (fun r => (r.fullPath, r))) k = none
      ↔ k ∉ rs.map SearchResult.fullPath := by
  induction rs with
  | nil => simp [mapGet]
  | cons r rs ih =>
      simp only [List.map_cons, mapGet_cons]
      by_cases hk : r.fullPath = k
      · simp [hk]
      · simp only [if_neg hk, ih, List.mem_cons]
        constructor
        · intro h hmem
          rcases hmem with h' | h'
          · exact hk h'.symm
          · exact h h'
        · intro h h'
          exact h (Or.inr h')

theorem mapGet_map_eq_some_iff {rs : List SearchResult}
    (h : (rs.map SearchResult.fullPath).Nodup) (k : String) (v : SearchResult) :
    mapGet (rs.map (fun r => (r.fullPath, r))) k = some v
      ↔ (v ∈ rs ∧ v.fullPath = k) := by
  induction rs with
  | nil => simp [mapGet]
  | cons r rs ih =>
      rw [List.map_cons, List.nodup_cons] at h
      obtain ⟨hnotin, hndtl⟩ := h
      simp only [List.map_cons, mapGet_cons]
      by_cases hk : r.fullPath = k
      · rw [if_pos hk]
        constructor
        · intro h'
          obtain rfl := Option.some.inj h'
          exact ⟨by simp, hk⟩
        · rintro ⟨hv, hvk⟩
          rcases List.mem_cons.1 hv with rfl | hv'
          · rfl
          · exfalso
            apply hnotin
            rw [hk, ← hvk]
            exact List.mem_map_of_mem _ hv'
      · rw [if_neg hk, ih hndtl]
        constructor
        · rintro ⟨hv, hvk⟩
          exact ⟨List.mem_cons_of_mem _ hv, hvk⟩
        · rintro ⟨hv, hvk⟩
          rcases List.mem_cons.1 hv with rfl | hv'
          · exact absurd hvk hk
          · exact ⟨hv', hvk⟩

theorem mapHas_of_mem {m : List (String × SearchResult)} {p : String × SearchResult}
    (hp : p ∈ m) : mapHas m p.1 = true := by
  simp only [mapHas, List.any_eq_true, beq_iff_eq]
  exact ⟨p, hp, rfl⟩

theorem mapSet_keys (m : List (String × SearchResult)) (k : String) (v : SearchResult) :
    (mapSet m k v).map Prod.fst
      = if mapHas m k then m.map Prod.fst else m.map Prod.fst ++ [k] := by
  unfold mapSet mapHas
  by_cases h : m.any (fun p => p.1 == k) = true
  · rw [if_pos h, if_pos h, List.map_map]
    apply List.map_congr_left
    intro p _
    by_cases hp : p.1 = k <;> simp [hp]
  · rw [if_neg h, if_neg h]
    simp

theorem buildPathMap_keys_nodup (rs : List SearchResult) :
    ((buildPathMap rs).map Prod.fst).Nodup := by
  suffices h : ∀ acc : List (String × SearchResult), (acc.map Prod.fst).Nodup →
      ((rs.foldl (fun m r => mapSet m r.fullPath r) acc).map Prod.fst).Nodup by
    exact h [] (by simp)
  induction rs with
  | nil => intro acc h; simpa using h
  | cons r rs ih =>
      intro acc h
      simp only [List.foldl_cons]
      apply ih
      rw [mapSet_keys]
      by_cases hk : mapHas acc r.fullPath = true
      · simpa [hk] using h
      · rw [if_neg (by simp [hk])]
        apply List.Nodup.append h (List.nodup_singleton _)
        intro a ha hb
        have hb' : a = r.fullPath := by simpa using hb
        subst hb'
        apply hk
        obtain ⟨p, hp, hp1⟩ := List.mem_map.1 ha
        simp only [mapHas, List.any_eq_true, beq_iff_eq]
        exact ⟨p, hp, hp1⟩

theorem mapGet_of_mem_nodupKeys {m : List (String × SearchResult)}
    (h : (m.map Prod.fst).Nodup) {p : String × SearchResult} (hp : p ∈ m) :
    mapGet m p.1 = some p.2 := by
  induction m with
  | nil => cases hp
  | cons q m ih =>
      rw [List.map_cons, List.nodup_cons] at h
      obtain ⟨hnotin, hndtl⟩ := h
      rw [mapGet_cons]
      rcases List.mem_cons.1 hp with rfl | hp'
      · rw [if_pos rfl]
      · have hq : q.1 ≠ p.1 := by
          intro hEq
          apply hnotin
          rw [hEq]
          exact List.mem_map_of_mem _ hp'
        rw [if_neg hq]
        exact ih hndtl hp'

/-- A snapshot diffed against itself yields no change records (for any input,
including snapshots with duplicate keys, since `Map.set` keeps one entry per
key). -/
theorem detectChanges_self (s : List SearchResult) : detectChanges s s = [] := by
  unfold detectChanges
  rw [List.append_eq_nil]
  constructor
  · rw [List.map_eq_nil_iff]
    rw [List.filter_eq_nil_iff]
    intro p hp
    simp [mapHas_of_mem hp]
  · rw [List.filterMap_eq_nil_iff]
    intro p hp
    rw [mapGet_of_mem_nodupKeys (buildPathMap_keys_nodup s) hp]
    simp

theorem addedModifiedEntry_none {oldM : List (String × SearchResult)}
    {rn : SearchResult} (h : mapGet oldM rn.fullPath = none) :
    addedModifiedEntry oldM rn
      = some { path := rn.fullPath, type := ChangeType.added } := by
  unfold addedModifiedEntry
  rw [h]

theorem addedModifiedEntry_some {oldM : List (String × SearchResult)}
    {rn ro : SearchResult} (h : mapGet oldM rn.fullPath = some ro) :
    addedModifiedEntry oldM rn
      = (if rn.dateModified ≠ ro.dateModified then
           some { path := rn.fullPath, type := ChangeType.modified }
         else none) := by
  unfold addedModifiedEntry
  rw [h]

theorem detectChanges_eq {old new : List SearchResult}
    (hold : (old.map SearchResult.fullPath).Nodup)
    (hnew : (new.map SearchResult.fullPath).Nodup) :
    detectChanges old new =
      (old.filter (fun r => ! mapHas (new.map (fun x => (x.fullPath, x))) r.fullPath)).map
        (fun r => { path := r.fullPath, type := ChangeType.deleted : Change })
      ++ new.filterMap (addedModifiedEntry (old.map (fun x => (x.fullPath, x)))) := by
  unfold detectChanges
  dsimp only
  rw [buildPathMap_eq hold, buildPathMap_eq hnew]
  rw [List.filter_map, List.map_map, List.filterMap_map]
  rfl

theorem addedModifiedEntry_path_type {oldM : List (String × SearchResult)}
    {rn : SearchResult} {c : Change} (h : addedModifiedEntry oldM rn = some c) :
    c.path = rn.fullPath ∧ c.type ≠ ChangeType.deleted := by
  rcases hget : mapGet oldM rn.fullPath with _ | ro
  · rw [addedModifiedEntry_none hget] at h
    obtain rfl := Option.some.inj h
    exact ⟨rfl, by simp⟩
  · rw [addedModifiedEntry_some hget] at h
    split_ifs at h with hd
    · obtain rfl := Option.some.inj h
      exact ⟨rfl, by simp⟩

theorem addedModifiedEntry_eq_added_iff {old : List SearchResult}
    (hold : (old.map SearchResult.fullPath).Nodup) (rn : SearchResult) (p : String) :
    addedModifiedEntry (old.map (fun x => (x.fullPath, x))) rn
        = some { path := p, type := ChangeType.added }
      ↔ rn.fullPath = p ∧ p ∉ old.map SearchResult.fullPath := by
  rcases hget : mapGet (old.map (fun x => (x.fullPath, x))) rn.fullPath with _ | ro
  · have hout := (mapGet_map_eq_none_iff old rn.fullPath).1 hget
    rw [addedModifiedEntry_none hget]
    constructor
    · intro h
      have h' := Option.some.inj h
      have hp : rn.fullPath = p := congrArg Change.path h'
      exact ⟨hp, hp ▸ hout⟩
    · rintro ⟨rfl, _⟩
      rfl
  · obtain ⟨hro, hrok⟩ := (mapGet_map_eq_some_iff hold _ _).1 hget
    have hmem : rn.fullPath ∈ old.map SearchResult.fullPath := by
      rw [← hrok]
      exact List.mem_map_of_mem _ hro
    rw [addedModifiedEntry_some hget]
    constructor
    · intro h
      split_ifs at h with hd
      · exact absurd (congrArg Change.type (Option.some.inj h)) (by simp)
    · rintro ⟨rfl, hout⟩
      exact absurd hmem hout

theorem addedModifiedEntry_eq_modified_iff {old : List SearchResult}
    (hold : (old.map SearchResult.fullPath).Nodup) (rn : SearchResult) (p : String) :
    addedModifiedEntry (old.map (fun x => (x.fullPath, x))) rn
        = some { path := p, type := ChangeType.modified }
      ↔ rn.fullPath = p
        ∧ ∃ ro ∈ old, ro.fullPath = p ∧ rn.dateModified ≠ ro.dateModified := by
  rcases hget : mapGet (old.map (fun x => (x.fullPath, x))) rn.fullPath with _ | ro
  · have hout := (mapGet_map_eq_none_iff old rn.fullPath).1 hget
    rw [addedModifiedEntry_none hget]
    constructor
    · intro h
      exact absurd (congrArg Change.type (Option.some.inj h)) (by simp)
    · rintro ⟨rfl, ro, hro, hrok, _⟩
      exact absurd (by rw [← hrok]; exact List.mem_map_of_mem _ hro) hout
  · obtain ⟨hro, hrok⟩ := (mapGet_map_eq_some_iff hold _ _).1 hget
    rw [addedModifiedEntry_some hget]
    constructor
    · intro h
      split_ifs at h with hd
      · have hp : rn.fullPath = p := congrArg Change.path (Option.some.inj h)
        exact ⟨hp, ro, hro, hp ▸ hrok, hd⟩
    · rintro ⟨rfl, ro', hro', hrok', hd'⟩
      have hro'eq : ro' = ro := by
        have h1 := (mapGet_map_eq_some_iff hold rn.fullPath ro').2 ⟨hro', hrok'⟩
        exact Option.some.inj (h1.symm.trans hget)
      rw [if_pos (hro'eq ▸ hd')]

theorem map_filterMap_sublist {α β γ : Type} (f : α → Option β) (g : β → γ)
    (h : α → γ) (l : List α) (hfg : ∀ a b, f a = some b → g b = h a) :
    ((l.filterMap f).map g).Sublist (l.map h) := by
  induction l with
  | nil => simp
  | cons a l ih =>
      cases hfa : f a with
      | none =>
          simp only [List.filterMap_cons, hfa, List.map_cons]
          exact ih.cons _
      | some b =>
          simp only [List.filterMap_cons, hfa, List.map_cons]
          rw [hfg a b hfa]
          exact ih.cons₂ _

theorem mem_detectChanges_deleted_iff {old new : List SearchResult}
    (hold : (old.map SearchResult.fullPath).Nodup)
    (hnew : (new.map SearchResult.fullPath).Nodup) (p : String) :
    ({ path := p, type := ChangeType.deleted } : Change) ∈ detectChanges old new
      ↔ p ∈ old.map SearchResult.fullPath ∧ p ∉ new.map SearchResult.fullPath := by
  rw [detectChanges_eq hold hnew, List.mem_append]
  constructor
  · rintro (h | h)
    · obtain ⟨r, hr, hEq⟩ := List.mem_map.1 h
      have hp : r.fullPath = p := congrArg Change.path hEq
      obtain ⟨hrold, hfil⟩ := List.mem_filter.1 hr
      refine ⟨hp ▸ List.mem_map_of_mem _ hrold, ?_⟩
      intro hmem
      rw [← hp] at hmem
      rw [Bool.not_eq_eq_eq_not, Bool.not_true] at hfil
      rw [← mapHas_map_iff new r.fullPath] at hmem
      rw [hfil] at hmem
      cases hmem
    · exfalso
      obtain ⟨rn, _, hf⟩ := List.mem_filterMap.1 h
      exact (addedModifiedEntry_path_type hf).2 rfl
  · rintro ⟨hin, hout⟩
    left
    obtain ⟨r, hr, hp⟩ := List.mem_map.1 hin
    refine List.mem_map.2 ⟨r, List.mem_filter.2 ⟨hr, ?_⟩, by rw [hp]⟩
    rw [Bool.not_eq_eq_eq_not, Bool.not_true, ← Bool.not_eq_true,
      mapHas_map_iff new r.fullPath, hp]
    exact hout

theorem mem_detectChanges_added_iff {old new : List SearchResult}
    (hold : (old.map SearchResult.fullPath).Nodup)
    (hnew : (new.map SearchResult.fullPath).Nodup) (p : String) :
    ({ path := p, type := ChangeType.added } : Change) ∈ detectChanges old new
      ↔ p ∈ new.map SearchResult.fullPath ∧ p ∉ old.map SearchResult.fullPath := by
  rw [detectChanges_eq hold hnew, List.mem_append]
  constructor
  · rintro (h | h)
    · exfalso
      obtain ⟨r, _, hEq⟩ := List.mem_map.1 h
      exact absurd (congrArg Change.type hEq) (by simp)
    · obtain ⟨rn, hrn, hf⟩ := List.mem_filterMap.1 h
      obtain ⟨hp, hout⟩ := (addedModifiedEntry_eq_added_iff hold rn p).1 hf
      exact ⟨hp ▸ List.mem_map_of_mem _ hrn, hout⟩
  · rintro ⟨hin, hout⟩
    right
    obtain ⟨rn, hrn, hp⟩ := List.mem_map.1 hin
    exact List.mem_filterMap.2
      ⟨rn, hrn, (addedModifiedEntry_eq_added_iff hold rn p).2 ⟨hp, hout⟩⟩

theorem mem_detectChanges_modified_iff {old new : List SearchResult}
    (hold : (old.map SearchResult.fullPath).Nodup)
    (hnew : (new.map SearchResult.fullPath).Nodup) (p : String) :
    ({ path := p, type := ChangeType.modified } : Change) ∈ detectChanges old new
      ↔ ∃ ro ∈ old, ∃ rn ∈ new, ro.fullPath = p ∧ rn.fullPath = p
          ∧ ro.dateModified ≠ rn.dateModified := by
  rw [detectChanges_eq hold hnew, List.mem_append]
  constructor
  · rintro (h | h)
    · exfalso
      obtain ⟨r, _, hEq⟩ := List.mem_map.1 h
      exact absurd (congrArg Change.type hEq) (by simp)
    · obtain ⟨rn, hrn, hf⟩ := List.mem_filterMap.1 h
      obtain ⟨hp, ro, hro, hrok, hd⟩ := (addedModifiedEntry_eq_modified_iff hold rn p).1 hf
      exact ⟨ro, hro, rn, hrn, hrok, hp, fun hEq => hd hEq.symm⟩
  · rintro ⟨ro, hro, rn, hrn, hrok, hp, hd⟩
    right
    exact List.mem_filterMap.2
      ⟨rn, hrn, (addedModifiedEntry_eq_modified_iff hold rn p).2
        ⟨hp, ro, hro, hrok, fun hEq => hd hEq.symm⟩⟩

theorem detectChanges_paths_nodup {old new : List SearchResult}
    (hold : (old.map SearchResult.fullPath).Nodup)
    (hnew : (new.map SearchResult.fullPath).Nodup) :
    ((detectChanges old new).map Change.path).Nodup := by
  rw [detectChanges_eq hold hnew, List.map_append]
  have hdel : ((old.filter
        (fun r => ! mapHas (new.map (fun x => (x.fullPath, x))) r.fullPath)).map
          (fun r => { path := r.fullPath, type := ChangeType.deleted : Change })).map
            Change.path
      = (old.filter
          (fun r => ! mapHas (new.map (fun x => (x.fullPath, x))) r.fullPath)).map
            SearchResult.fullPath := by
    rw [List.map_map]
    rfl
  have hsub : ((new.filterMap
        (addedModifiedEntry (old.map (fun x => (x.fullPath, x))))).map Change.path).Sublist
      (new.map SearchResult.fullPath) :=
    map_filterMap_sublist _ Change.path SearchResult.fullPath new
      (fun a b hb => (addedModifiedEntry_path_type hb).1)
  apply List.Nodup.append
  · rw [hdel]
    exact hold.sublist ((List.filter_sublist _).map _)
  · exact hnew.sublist hsub
  · intro a ha hb
    rw [hdel] at ha
    obtain ⟨r, hr, hp⟩ := List.mem_map.1 ha
    obtain ⟨_, hfil⟩ := List.mem_filter.1 hr
    rw [Bool.not_eq_eq_eq_not, Bool.not_true] at hfil
    have hmem : a ∈ new.map SearchResult.fullPath := hsub.subset hb
    rw [← hp, ← mapHas_map_iff new r.fullPath] at hmem
    rw [hfil] at hmem
    cases hmem

theorem filterMap_const_some {α β : Type} (g : α → β) (l : List α) :
    l.filterMap (fun a => some (g a)) = l.map g := by
  induction l with
  | nil => rfl
  | cons a l ih => simp [List.filterMap_cons, ih]

/-- Diffing against an empty previous snapshot marks every (uniquely-keyed)
current result as added. -/
theorem detectChanges_nil_left {r : List SearchResult}
    (hnd : (r.map SearchResult.fullPath).Nodup) :
    detectChanges [] r
      = r.map (fun x => { path := x.fullPath, type := ChangeType.added }) := by
  rw [detectChanges_eq (by simp) hnd]
  simp only [List.filter_nil, List.map_nil, List.nil_append]
  have hfun : addedModifiedEntry ([] : List (String × SearchResult))
      = fun x => some { path := x.fullPath, type := ChangeType.added : Change } :=
    funext fun x => addedModifiedEntry_none rfl
  rw [hfun, filterMap_const_some]

/-- C1: for snapshots whose `fullPath`s are unique (the spec's identity
invariant), the change detector's output has pairwise-distinct paths — so at
most one record per path — and: a `deleted` record for `p` exists iff `p` is in
the previous snapshot and not the current one; an `added` record iff `p` is in
the current snapshot and not the previous one; a `modified` record iff `p` is
in both with differing `dateModified` (so a path in both with equal
`dateModified` yields nothing).  The spec's concrete scenario produces exactly
its three expected records in order, and any snapshot diffed against itself
yields zero records. -/
theorem detectChanges_characterization (old new : List SearchResult)
    (hold : (old.map SearchResult.fullPath).Nodup)
    (hnew : (new.map SearchResult.fullPath).Nodup) :
    ((detectChanges old new).map Change.path).Nodup
    ∧ (∀ p, ({ path := p, type := ChangeType.deleted } : Change) ∈ detectChanges old new ↔
         p ∈ old.map SearchResult.fullPath ∧ p ∉ new.map SearchResult.fullPath)
    ∧ (∀ p, ({ path := p, type := ChangeType.added } : Change) ∈ detectChanges old new ↔
         p ∈ new.map SearchResult.fullPath ∧ p ∉ old.map SearchResult.fullPath)
    ∧ (∀ p, ({ path := p, type := ChangeType.modified } : Change) ∈ detectChanges old new ↔
         ∃ ro ∈ old, ∃ rn ∈ new, ro.fullPath = p ∧ rn.fullPath = p
           ∧ ro.dateModified ≠ rn.dateModified)
    ∧ detectChanges examplePrev exampleCur =
        [{ path := "C:\\a.txt", type := ChangeType.deleted },
         { path := "C:\\b.txt", type := ChangeType.modified },
         { path := "C:\\c.txt", type := ChangeType.added }]
    ∧ (∀ s, detectChanges s s = []) :=
  ⟨detectChanges_paths_nodup hold hnew,
   mem_detectChanges_deleted_iff hold hnew,
   mem_detectChanges_added_iff hold hnew,
   mem_detectChanges_modified_iff hold hnew,
   by decide,
   detectChanges_self⟩

/-- C1 witness: in the spec's concrete scenario `C:\a.txt` is reported
deleted, by the characterization applied to the concrete snapshots. -/
theorem detectChanges_characterization_witness :
    ({ path := "C:\\a.txt", type := ChangeType.deleted } : Change) ∈
      detectChanges examplePrev exampleCur :=
  ((detectChanges_characterization examplePrev exampleCur (by decide) (by decide)).2.1
    "C:\\a.txt").mpr (by decide)

/-- C2 counterexample: on the very first HTTP polling tick (empty baseline,
`lastResults = []`) a non-empty first search result makes the monitor compute a
diff and invoke the callback with an `added` record — contradicting "no
callback fires on the first tick" for every adapter. -/
theorem http_first_tick_fires_callback :
    (httpPollTick [] (Except.ok [resultA])).1
      = some [{ path := "C:\\a.txt", type := ChangeType.added }] := by decide

/-- C2 (amended): on the first polling tick the IPC and CLI monitors compute no
diff and never invoke the callback (their bodies are guarded by
`lastResults.length > 0`), and the first snapshot only seeds the baseline; the
HTTP monitor instead diffs the first snapshot against the empty baseline and
invokes the callback with one `added` record per result whenever the first
search returns a non-empty list. -/
theorem first_tick_no_callback (r : List SearchResult)
    (hnd : (r.map SearchResult.fullPath).Nodup) :
    ipcPollTick [] (Except.ok r) = (none, r)
    ∧ cliPollTick [] (Except.ok r) = (none, r)
    ∧ httpPollTick [] (Except.ok r)
        = (if r = [] then none
           else some (r.map (fun x => { path := x.fullPath, type := ChangeType.added })),
           r) := by
  refine ⟨rfl, rfl, ?_⟩
  unfold httpPollTick
  dsimp only
  rw [detectChanges_nil_left hnd]
  rcases r with _ | ⟨a, l⟩
  · simp
  · simp

/-- C2 witness: with the singleton first snapshot the IPC monitor's first tick
fires no callback and seeds the baseline. -/
theorem first_tick_no_callback_witness :
    ipcPollTick [] (Except.ok [resultA]) = (none, [resultA]) :=
  (first_tick_no_callback [resultA] (by decide)).1

theorem ipcTickStart_mono (d : Nat → Nat) : ∀ j k, j < k →
    ipcTickStart d j + d j ≤ ipcTickStart d k := by
  intro j k hjk
  induction k with
  | zero => exact absurd hjk (Nat.not_lt_zero j)
  | succ k ih =>
      have hstep : ipcTickStart d (k + 1) = ipcTickStart d k + d k + 5000 := rfl
      rcases Nat.lt_succ_iff_lt_or_eq.1 hjk with h | h
      · exact le_trans (ih h) (by omega)
      · subst h
        omega

theorem cliTickStart_mono (d : Nat → Nat) : ∀ j k, j < k →
    cliTickStart d j + d j ≤ cliTickStart d k := by
  intro j k hjk
  induction k with
  | zero => exact absurd hjk (Nat.not_lt_zero j)
  | succ k ih =>
      have hstep : cliTickStart d (k + 1) = cliTickStart d k + d k + 10000 := rfl
      rcases Nat.lt_succ_iff_lt_or_eq.1 hjk with h | h
      · exact le_trans (ih h) (by omega)
      · subst h
        omega

/-- C6 counterexample: with a 1500 ms search duration the HTTP monitor's
second tick starts at t = 2000 while the first tick, started at t = 1000,
is still in flight until t = 2500 — polling cycles overlap. -/
theorem http_setInterval_overlap :
    httpTickStart 1 < httpTickStart 0 + 1500 := by decide

/-- C6 (amended): the IPC and CLI monitors re-arm their `setTimeout` only
after the tick body completes, so for every duration assignment an earlier
tick always finishes before a later one starts; the HTTP monitor's
`setInterval` fires on a fixed 1000 ms grid, so whenever a tick's
search-and-diff body takes longer than 1000 ms the next tick starts before it
finishes. -/
theorem polling_tick_overlap (d : Nat → Nat) (j k : Nat) (hjk : j < k)
    (hslow : 1000 < d j) :
    ipcTickStart d j + d j ≤ ipcTickStart d k
    ∧ cliTickStart d j + d j ≤ cliTickStart d k
    ∧ httpTickStart (j + 1) < httpTickStart j + d j := by
  refine ⟨ipcTickStart_mono d j k hjk, cliTickStart_mono d j k hjk, ?_⟩
  unfold httpTickStart
  omega

/-- C6 witness: concrete overlap data — 1500 ms ticks, first and second tick. -/
theorem polling_tick_overlap_witness :
    ipcTickStart (fun _ => 1500) 0 + 1500 ≤ ipcTickStart (fun _ => 1500) 1
    ∧ cliTickStart (fun _ => 1500) 0 + 1500 ≤ cliTickStart (fun _ => 1500) 1
    ∧ httpTickStart 1 < httpTickStart 0 + 1500 :=
  polling_tick_overlap (fun _ => 1500) 0 1 (by decide) (by decide)

end EverythingClient
